import Mathlib

/-!
Verification development for the GamblingOnDogs trading bot
(`src/trader.py`, `src/okx_client.py`, `src/ai_client.py`).

The Python modules are shallowly embedded: Python floats are modelled as
exact rationals (`ℚ`), Python ints as `ℤ`, fallible computations as
`Option`/`Except`, and the process-wide position-cap cache as an explicit
function argument threaded through the operations.  Network endpoints
(the OKX REST API and the OpenAI-compatible chat endpoint) are modelled
as explicit oracles: a function from attempt index to the response that
attempt receives, where an `Except.error` value stands for a raised
transport/HTTP exception.
-/

namespace GamblingOnDogs

/-- Python `int(x)` on a float/rational: truncation toward zero. -/
def pyTrunc (q : ℚ) : ℤ :=
  if 0 ≤ q then ⌊q⌋ else ⌈q⌉

/-- Line 53 of `trader.plan_size_from_notional`:
`last = float(okx.get_last_price(inst_id)) or 1.0` — a falsy (zero)
reported price is replaced by `1.0`.  `lastRaw` is the price reported by
`get_last_price`. -/
def planLast (lastRaw : ℚ) : ℚ :=
  if lastRaw = 0 then 1 else lastRaw

/-- Embedding of `trader.plan_size_from_notional` (trader.py lines 40-62), contracts
field of the returned `SizePlan`:

```
last = float(okx.get_last_price(inst_id)) or 1.0
effective = notional_usdt * leverage
coin_qty = effective / last
contracts = max(1, int(coin_qty))
next_amt = (contracts + 1) * last / leverage
if next_amt <= notional_usdt:
    contracts += 1
```

The notional field of the plan is the unchanged `notional_usdt`. -/
def plan_size_from_notional (lastRaw notional_usdt leverage : ℚ) : ℤ :=
  let last := planLast lastRaw
  let effective := notional_usdt * leverage
  let coin_qty := effective / last
  let contracts := max 1 (pyTrunc coin_qty)
  let next_amt := ((contracts : ℚ) + 1) * last / leverage
  if next_amt ≤ notional_usdt then contracts + 1 else contracts

/-- One OKX candle row `[ts, o, h, l, c, vol, ...]`.  Each field is the
result of a Python `float(...)` conversion attempt: `some q` when the
string parses to the value `q`, `none` when `float()` would raise. -/
def Candle : Type := List (Option ℚ)

/-- Python `float(c[4])`: index 4 of a candle row (IndexError when the row is
shorter), then the float conversion (failure when the field does not
parse). -/
def closeAt (c : Candle) : Option ℚ :=
  (List.get? c 4).join

/-- Python `[float(c[4]) for c in candles[:n]]` — the list comprehension raises
as soon as one row fails, aborting the whole list. -/
def closesOf (n : Nat) (candles : List Candle) : Option (List ℚ) :=
  (candles.take n).mapM closeAt

/-- The shared momentum snippet, used with `n = 30` in
`HeuristicAIClient.decide_direction` (ai_client.py lines 96-103) and
with `n = 10` as the in-method fallback of
`OpenAICompatClient.decide_direction` (lines 80-87):

```
try:
    closes = [float(c[4]) for c in candles[:n]]
    if len(closes) >= 2 and closes[-1] > closes[0]:
        return "long"
except Exception:
    pass
return "short"
```

Note that it compares `closes[-1]` (the last element of the window,
i.e. the OLDEST close, since candles arrive newest-first) against
`closes[0]` (the most recent close). -/
def momentumDecision (n : Nat) (candles : List Candle) : String :=
  match closesOf n candles with
  | none => "short"
  | some closes =>
      if 2 ≤ closes.length ∧ closes.headD 0 < closes.getLastD 0 then "long"
      else "short"

/-- Embedding of `HeuristicAIClient.decide_direction` (ai_client.py lines 96-103). -/
def heuristic_decide_direction (candles : List Candle) : String :=
  momentumDecision 30 candles

/-- Python `"needle" in hay` on character lists. -/
def listHasSub : List Char → List Char → Bool
  | [], needle => needle.isEmpty
  | hay@(_ :: t), needle => needle.isPrefixOf hay || listHasSub t needle

/-- Python `needle in hay` on strings. -/
def pyIn (needle hay : String) : Bool :=
  listHasSub hay.data needle.data

/-- Python `str.lower()` (ASCII view). -/
def pyLower (s : String) : String :=
  ⟨s.data.map Char.toLower⟩

/-- Embedding of `OpenAICompatClient.decide_direction` (ai_client.py lines 56-87).
`httpOutcome` models the whole `with httpx.Client(...)` block up to the
extraction of `data["choices"][0]["message"]["content"]`: `.ok raw`
when the POST succeeded with a 2xx status and the payload carried a
content string `raw`; `.error e` when any step raised (connection
error, timeout, `raise_for_status` on a non-2xx status, JSON decoding,
or a missing key).  The method body has no try/except around that
block, so in the embedding an `.error` outcome propagates to the
caller unchanged; only an unambiguous keyword match or the in-method
momentum fallback produce a decision. -/
def openai_decide_direction (httpOutcome : Except String String)
    (candles : List Candle) : Except String String :=
  match httpOutcome with
  | .error e => .error e
  | .ok raw =>
      let content := pyLower raw.trim
      if pyIn "long" content && !pyIn "short" content then .ok "long"
      else if pyIn "short" content && !pyIn "long" content then .ok "short"
      else .ok (momentumDecision 10 candles)

/-- One element of the `data` array of an OKX order response:
`sCode`/`sMsg` are the per-order status code and message (both strings,
`""` standing for an absent key), `ordId` the order id when present. -/
structure OrderItem where
  sCode : String
  sMsg : String
  ordId : Option String
deriving DecidableEq

/-- An OKX order response `{code, msg, data}` as a Python dict.  The
transport layer always hands `place_order` a dict, so only this shape
is modelled; a raised exception is an `Except.error` upstream. -/
structure OrderResp where
  code : String
  msg : String
  data : List OrderItem
deriving DecidableEq

/-- The dict `{"code": "-1", "msg": str(e), "data": []}` — the value
`OkxClient.place_order` returns when any exchange call inside its
try-block raises (okx_client.py line 420). -/
def errResp (e : String) : OrderResp :=
  { code := "-1", msg := e, data := [] }

/-- The process-wide position-cap cache `OkxClient._cap_cache`,
modelled as an explicit map `(inst_id, lever) → cap`. -/
def CapCache : Type := String × ℤ → Option ℤ

/-- Python int truthiness of an optional int: not `None` and nonzero. -/
def pyTruthyInt : Option ℤ → Bool
  | some v => v != 0
  | none => false

/-- Embedding of `OkxClient.update_position_cap` (okx_client.py lines 107-114):
stores `cap` under `(inst_id, int(lever))` only when `inst_id`,
`lever` and `cap` are all truthy. -/
def update_position_cap (cache : CapCache) (instId : String)
    (lever cap : Option ℤ) : CapCache :=
  match lever, cap with
  | some l, some cp =>
      if instId ≠ "" ∧ l ≠ 0 ∧ cp ≠ 0 then
        fun k => if k = (instId, l) then some cp else cache k
      else cache
  | _, _ => cache

/-- Embedding of `OkxClient.get_cached_position_cap` (okx_client.py lines 101-105):
`None` when no leverage is given, otherwise the cache lookup. -/
def get_cached_position_cap (cache : CapCache) (instId : String)
    (lever : Option ℤ) : Option ℤ :=
  match lever with
  | none => none
  | some l => cache (instId, l)

/-- Character class `[0-9,]` of the cap-extraction regex. -/
def digitOrComma (ch : Char) : Bool :=
  ch.isDigit || ch == ','

/-- Python `int(...)` of a digit string (after `.replace(",", "")`). -/
def digitsVal (l : List Char) : ℤ :=
  l.foldl (fun a ch => a * 10 + ((ch.toNat : ℤ) - 48)) 0

/-- Embedding of `re.findall(r"([0-9,]+)\(contracts\)", s_msg)` followed by
`int(m_all[0].replace(",", ""))` (okx_client.py lines 355-360): the
leftmost maximal `[0-9,]` run directly followed by `(contracts)`;
`none` when there is no match or when the matched group carries no
digit (so `int` would raise and the code sets `cap_value = None`). -/
def capScan : List Char → Option ℤ
  | [] => none
  | ch :: rest =>
      if digitOrComma ch &&
          "(contracts)".data.isPrefixOf ((ch :: rest).dropWhile digitOrComma) then
        let digits := ((ch :: rest).takeWhile digitOrComma).filter Char.isDigit
        if digits.isEmpty then none else some (digitsVal digits)
      else capScan rest

/-- Embedding of `re.search(r"maximum position amount[^0-9]*([0-9,]+)", s_msg,
re.IGNORECASE)` (okx_client.py lines 363-368): the first occurrence of
the phrase that is followed — across non-digit characters only — by a
digit; the captured group is the `[0-9,]` run starting at that digit. -/
def capScanFallback : List Char → Option ℤ
  | [] => none
  | ch :: rest =>
      if "maximum position amount".data.isPrefixOf ((ch :: rest).map Char.toLower) then
        let after := (ch :: rest).drop "maximum position amount".data.length
        match after.dropWhile (fun c2 => !c2.isDigit) with
        | [] => capScanFallback rest
        | d :: ds =>
            some (digitsVal (((d :: ds).takeWhile digitOrComma).filter Char.isDigit))
      else capScanFallback rest

/-- Direction resolution for TP/SL triggers (okx_client.py lines
248-257 and 273-281): explicit `posSide` in dual mode, order side in
net mode, defaulting to long. -/
def resolve_is_long (posSide side : String) : Bool :=
  if posSide = "long" then true
  else if posSide = "short" then false
  else if posSide = "net" then side == "buy"
  else true

/-- TP trigger price (okx_client.py lines 258-265): `last * (1 + ratio)`
clamped to `last * 1.002` when not above `last` for a long, mirrored
with a `0.998` clamp for a short.  `ratio` is already `abs(tp_ratio)`. -/
def tp_px (last ratio : ℚ) (isLong : Bool) : ℚ :=
  if isLong then
    let px := last * (1 + ratio)
    if px ≤ last then last * (1002 / 1000) else px
  else
    let px := last * (1 - ratio)
    if last ≤ px then last * (998 / 1000) else px

/-- SL trigger price (okx_client.py lines 282-289), the mirror image of
`tp_px`. -/
def sl_px (last ratio : ℚ) (isLong : Bool) : ℚ :=
  if isLong then
    let px := last * (1 - ratio)
    if last ≤ px then last * (998 / 1000) else px
  else
    let px := last * (1 + ratio)
    if px ≤ last then last * (1002 / 1000) else px

/-- TP-direction rejection test (okx_client.py lines 305-316): first
`data` item has `sCode` 51052/51051, or its lowercased `sMsg` mentions
"tp price" together with "lower" or "higher". -/
def isTpReject (r : OrderResp) : Bool :=
  match r.data with
  | [] => false
  | item :: _ =>
      (item.sCode == "51052" || item.sCode == "51051") ||
        (pyIn "tp price" (pyLower item.sMsg) &&
          (pyIn "lower" (pyLower item.sMsg) || pyIn "higher" (pyLower item.sMsg)))

/-- Predicate `isTpReject` lifted to a possibly-raising exchange response. -/
def isTpRejectE : Except String OrderResp → Bool
  | .ok r => isTpReject r
  | .error _ => false

/-- Result of one `place_order` submission: the dict returned to the
caller, the sizes handed to `trade.place_order` on each attempt (in
order; `none` for an unparseable size string), the cap cache after the
call, and the TP/SL trigger prices computed for the first attempt. -/
structure PlaceOutcome where
  result : OrderResp
  szSent : List (Option ℤ)
  cache : CapCache
  tpComputed : Option ℚ
  slComputed : Option ℚ

/-- The try-block of `OkxClient.place_order` (okx_client.py lines
300-420): first submission, then at most one self-healing resubmission.
`exchange i` is what the i-th `self.trade.place_order` call yields
(`Except.error` for a raised exception, which the surrounding
try/except turns into `errResp`).  `sz` is `int(float(sz))` of the size
string, `none` when that conversion raises.  The three rejection
branches mirror the source order: TP-direction (51052/51051 or message
match, requiring an attached `tpTriggerPx` and a truthy `last`), then
size-cap 51004, then margin 51008; a response carries a single `sCode`,
so the 51004 fall-through can never also match 51008.  The TP
resubmission reuses the same size with a flipped trigger; the cap and
margin resubmissions shrink the size. -/
def place_order_attempts (cache : CapCache)
    (exchange : Nat → Except String OrderResp)
    (instId : String) (sz : Option ℤ)
    (tpRa slRa : Option ℚ) (lever : Option ℤ)
    (last : ℚ) : OrderResp × List (Option ℤ) × CapCache :=
  let hasTp := tpRa.isSome
  let lastTruthy := (tpRa.isSome || slRa.isSome) && !(last == 0)
  match exchange 0 with
  | .error e => (errResp e, [sz], cache)
  | .ok r1 =>
      if isTpReject r1 && hasTp && lastTruthy then
        match exchange 1 with
        | .error e => (errResp e, [sz, sz], cache)
        | .ok r2 => (r2, [sz, sz], cache)
      else
        let isCap := match r1.data with
          | [] => false
          | item :: _ => item.sCode == "51004"
        let msg1 := match r1.data with
          | [] => ""
          | item :: _ => item.sMsg
        if isCap then
          let capVal : Option ℤ :=
            match capScan msg1.data with
            | some v => some v
            | none => capScanFallback msg1.data
          let cache2 :=
            if pyTruthyInt capVal && pyTruthyInt sz then
              update_position_cap cache instId lever capVal
            else cache
          let newSz : Option ℤ :=
            if pyTruthyInt capVal && pyTruthyInt sz then
              some (max 1 (min (sz.getD 0) (capVal.getD 0)))
            else if pyTruthyInt sz then
              some (max 1 (Int.fdiv (sz.getD 0) 2))
            else none
          if pyTruthyInt newSz && !(newSz == sz) then
            match exchange 1 with
            | .error e => (errResp e, [sz, newSz], cache2)
            | .ok r2 => (r2, [sz, newSz], cache2)
          else (r1, [sz], cache2)
        else
          let isMargin := match r1.data with
            | [] => false
            | item :: _ => item.sCode == "51008"
          if isMargin && pyTruthyInt sz && decide (1 < sz.getD 0) then
            match exchange 1 with
            | .error e => (errResp e, [sz, some (max 1 (Int.fdiv (sz.getD 0) 2))], cache)
            | .ok r2 => (r2, [sz, some (max 1 (Int.fdiv (sz.getD 0) 2))], cache)
          else (r1, [sz], cache)

/-- Embedding of `OkxClient.place_order` (okx_client.py lines 209-420): computes the
TP/SL triggers from `last` and the resolved direction (lines 242-293),
then runs the submission/retry ladder. -/
def place_order (cache : CapCache) (exchange : Nat → Except String OrderResp)
    (instId side : String) (sz : Option ℤ) (posSide : String)
    (tpRa slRa : Option ℚ) (lever : Option ℤ) (last : ℚ) : PlaceOutcome :=
  let isL := resolve_is_long posSide side
  let core := place_order_attempts cache exchange instId sz tpRa slRa lever last
  { result := core.1
    szSent := core.2.1
    cache := core.2.2
    tpComputed := tpRa.map (fun r => tp_px last |r| isL)
    slComputed := slRa.map (fun r => sl_px last |r| isL) }

/-- The cap-resolution step of `trader.open_position` (trader.py lines
118-141): a truthy `fixed_contracts` overrides everything; otherwise
the planned count is clamped to the minimum truthy candidate among the
instrument max, the global max and the cached position cap. -/
def resolve_contracts (planned : ℤ)
    (fixedContracts instMax globalMax posCap : Option ℤ) : ℤ :=
  if pyTruthyInt fixedContracts then fixedContracts.getD 0
  else
    match ([instMax, globalMax, posCap].filterMap id).filter
        (fun v => decide (v ≠ 0)) with
    | [] => planned
    | x :: xs =>
        let hard := xs.foldl min x
        if hard < planned then hard else planned

/-- The per-cycle environment of `trader.trade_loop` (trader.py lines
251-300): the outcome of `okx.get_positions()` (parsed `pos` magnitudes
of the returned entries), of `okx.get_candles(...)` and of
`okx.get_usdt_balance()`, each either a value or a raised
`NetworkError`. -/
structure CycleEnv where
  getPositions : Except Unit (List ℚ)
  getCandles : Except Unit Unit
  getBalance : Except Unit ℚ

/-- One iteration of the `while True` body of `trader.trade_loop`
(trader.py lines 251-300), restricted to the cursor and the submission
decision: returns the cursor after the iteration, whether
`open_position` was invoked this cycle, and the selected instrument
index (`idx % n`) when one was selected.  A raised `NetworkError` at
any of the three query points is caught by the `except NetworkError`
handler; the guard `continue` at line 262 fires before the cursor
increment at line 266. -/
def trade_cycle (n idx : Nat) (env : CycleEnv) : Nat × Bool × Option Nat :=
  match env.getPositions with
  | .error _ => (idx, false, none)
  | .ok ps =>
      if ps.any (fun p => decide (0 < |p|)) then (idx, false, none)
      else
        let chosen := idx % n
        match env.getCandles with
        | .error _ => (idx + 1, false, some chosen)
        | .ok _ =>
            match env.getBalance with
            | .error _ => (idx + 1, false, some chosen)
            | .ok _ => (idx + 1, true, some chosen)

/-- A newest-first candle window whose close prices are
`102, 101, 100`: chronologically the price rose from 100 to 102. -/
def risingCandles : List Candle :=
  [[some 1, some 101, some 103, some 99, some 102],
   [some 2, some 100, some 102, some 98, some 101],
   [some 3, some 99, some 101, some 97, some 100]]

/-- An empty position-cap cache, the state right after `OkxClient.__init__`. -/
def emptyCache : CapCache := fun _ => none

/-- An exchange that accepts every order with an empty data payload. -/
def noopExchange : Nat → Except String OrderResp :=
  fun _ => Except.ok { code := "0", msg := "", data := [] }

/-- A TP-direction rejection (sCode 51052). -/
def tpRejectResp : OrderResp :=
  { code := "1", msg := ""
    data := [{ sCode := "51052"
               sMsg := "Your TP trigger price should be lower than the order price."
               ordId := none }] }

/-- An exchange that answers every attempt with the TP-direction
rejection — the "twice in a row" scenario of C3. -/
def doubleTpExchange : Nat → Except String OrderResp :=
  fun _ => Except.ok tpRejectResp

/-- The data item of a size-cap rejection (sCode 51004) whose message
carries the cap figure `1,500(contracts)`. -/
def capRejectItem : OrderItem :=
  { sCode := "51004"
    sMsg := "The maximum position amount at the current leverage is 1,500(contracts)."
    ordId := none }

/-- A size-cap rejection response wrapping `capRejectItem`. -/
def capRejectResp : OrderResp :=
  { code := "1", msg := "", data := [capRejectItem] }

/-- An exchange that answers every attempt with the 51004 rejection. -/
def capExchange : Nat → Except String OrderResp :=
  fun _ => Except.ok capRejectResp

/-- A cycle environment in which `get_positions` reports one entry with
position magnitude 1 — an open position. -/
def openPosEnv : CycleEnv :=
  { getPositions := Except.ok [1], getCandles := Except.ok (), getBalance := Except.ok 100 }

/-- A cycle environment in which `get_positions` reports a flat account
and every later query succeeds. -/
def flatEnv : CycleEnv :=
  { getPositions := Except.ok [0], getCandles := Except.ok (), getBalance := Except.ok 100 }

end GamblingOnDogs

namespace GamblingOnDogs

/-- C1 (code bug): `OpenAICompatClient.decide_direction` has no
try/except around its HTTP block, so every transport/status/parsing
fault propagates to the caller instead of degrading to the momentum
fallback; the trading loop catches only `NetworkError` and is
terminated by it. -/
theorem openai_decide_direction_propagates_fault
    (e : String) (candles : List Candle) :
    openai_decide_direction (Except.error e) candles = Except.error e := rfl

/-- C2 (code bug): on the newest-first window with closes
`[102, 101, 100]` (price rose from 100 to the most recent 102), the
momentum heuristic returns `"short"`, because it compares the oldest
close of the window against the most recent one — the reverse of the
documented "long if price rose" rule. -/
theorem heuristic_decide_direction_short_on_rising :
    heuristic_decide_direction risingCandles = "short" ∧
    closesOf 30 risingCandles = some [102, 101, 100] := by
  constructor
  · rfl
  · rfl

/-- C6: for all `N > 0`, `L ≥ 1`, `P > 0`, `plan_size_from_notional`
returns a contract count `≥ 1`; it never returns 0 or a negative count. -/
theorem plan_size_contracts_ge_one
    (P N L : ℚ) (hP : 0 < P) (hN : 0 < N) (hL : 1 ≤ L) :
    1 ≤ plan_size_from_notional P N L := by
  unfold plan_size_from_notional
  set c := max 1 (pyTrunc (N * L / planLast P)) with hc
  have h1 : (1 : ℤ) ≤ c := le_max_left _ _
  by_cases h : ((c : ℚ) + 1) * planLast P / L ≤ N
  · simp only [h, if_pos]
    omega
  · simp only [h, if_neg, not_false_iff]
    omega

/-- C6 witness. -/
theorem plan_size_contracts_ge_one_witness :
    1 ≤ plan_size_from_notional 30000 10 100 :=
  plan_size_contracts_ge_one 30000 10 100 (by norm_num) (by norm_num) (by norm_num)

/-- Truncation toward zero is monotone on nonnegative rationals. -/
lemma pyTrunc_mono_nonneg {a b : ℚ} (ha : 0 ≤ a) (h : a ≤ b) :
    pyTrunc a ≤ pyTrunc b := by
  unfold pyTrunc
  rw [if_pos ha, if_pos (ha.trans h)]
  exact Int.floor_le_floor h

/-- Let-free unfolding of `plan_size_from_notional`. -/
lemma plan_size_eq (lastRaw N L : ℚ) :
    plan_size_from_notional lastRaw N L =
      if (((max 1 (pyTrunc (N * L / planLast lastRaw)) : ℤ) : ℚ) + 1)
            * planLast lastRaw / L ≤ N
      then max 1 (pyTrunc (N * L / planLast lastRaw)) + 1
      else max 1 (pyTrunc (N * L / planLast lastRaw)) := rfl

/-- Joint monotonicity of the planned contract count in notional and
leverage, at a fixed positive price.  Subsumes both directions of C9. -/
lemma plan_size_mono_core (P N N' L L' : ℚ)
    (hP : 0 < P) (hN : 0 < N) (hNN : N ≤ N') (hL : 1 ≤ L) (hLL : L ≤ L') :
    plan_size_from_notional P N L ≤ plan_size_from_notional P N' L' := by
  have hPne : P ≠ 0 := ne_of_gt hP
  have hlast : planLast P = P := if_neg hPne
  have hL0 : (0 : ℚ) < L := lt_of_lt_of_le one_pos hL
  have hL0' : (0 : ℚ) < L' := lt_of_lt_of_le hL0 hLL
  rw [plan_size_eq, plan_size_eq, hlast]
  set c := max 1 (pyTrunc (N * L / P)) with hcdef
  set c' := max 1 (pyTrunc (N' * L' / P)) with hcdef'
  have hNL : N * L ≤ N' * L' :=
    mul_le_mul hNN hLL (le_of_lt hL0) (le_trans (le_of_lt hN) hNN)
  have hq : N * L / P ≤ N' * L' / P := by gcongr
  have hcc : c ≤ c' := max_le_max le_rfl (pyTrunc_mono_nonneg (by positivity) hq)
  have hc1 : (1 : ℤ) ≤ c := le_max_left _ _
  rcases eq_or_lt_of_le hcc with heq | hlt
  · rw [← heq]
    have hcast : (1 : ℚ) ≤ (c : ℚ) := by exact_mod_cast hc1
    have hnum : (0 : ℚ) ≤ ((c : ℚ) + 1) * P :=
      mul_nonneg (by linarith) (le_of_lt hP)
    have hdiv : ((c : ℚ) + 1) * P / L' ≤ ((c : ℚ) + 1) * P / L := by gcongr
    split_ifs with h1 h2
    · omega
    · exact absurd (le_trans hdiv (le_trans h1 hNN)) h2
    · omega
    · omega
  · split_ifs <;> omega

/-- C9: at a fixed price `P > 0`, the contract count from
`plan_size_from_notional` is monotone in the notional and in the
leverage: raising `N` (with `L` fixed) or raising `L` (with `N` fixed)
never decreases the planned contracts, the greedy `+1` step included. -/
theorem plan_size_monotone (P N N' L L' : ℚ)
    (hP : 0 < P) (hN : 0 < N) (hL : 1 ≤ L) :
    (N ≤ N' → plan_size_from_notional P N L ≤ plan_size_from_notional P N' L) ∧
    (L ≤ L' → plan_size_from_notional P N L ≤ plan_size_from_notional P N L') :=
  ⟨fun h => plan_size_mono_core P N N' L L hP hN h hL le_rfl,
   fun h => plan_size_mono_core P N N L L' hP hN le_rfl hL h⟩

/-- C9 witness. -/
theorem plan_size_monotone_witness :
    (plan_size_from_notional 30000 10 100 ≤ plan_size_from_notional 30000 25 100) ∧
    (plan_size_from_notional 30000 10 100 ≤ plan_size_from_notional 30000 10 150) :=
  ⟨(plan_size_monotone 30000 10 25 100 150 (by norm_num) (by norm_num)
      (by norm_num)).1 (by norm_num),
   (plan_size_monotone 30000 10 25 100 150 (by norm_num) (by norm_num)
      (by norm_num)).2 (by norm_num)⟩

/-- C10: a reported last price of `0` (the only falsy float) is silently
replaced by `1.0` before dividing, so the division in
`plan_size_from_notional` never divides by the reported zero price and
the plan equals the one computed at price `1.0`. -/
theorem plan_size_total_at_zero_price :
    planLast 0 = 1 ∧
    ∀ N L : ℚ, plan_size_from_notional 0 N L = plan_size_from_notional 1 N L := by
  constructor
  · simp [planLast]
  · intro N L
    unfold plan_size_from_notional
    simp [planLast]

/-- The TP trigger price `place_order` computes for the first attempt. -/
lemma place_order_tpComputed_eq (cache : CapCache)
    (exchange : Nat → Except String OrderResp) (instId side : String)
    (sz : Option ℤ) (posSide : String) (tpRa slRa : Option ℚ)
    (lever : Option ℤ) (last : ℚ) :
    (place_order cache exchange instId side sz posSide tpRa slRa lever last).tpComputed
      = tpRa.map (fun r => tp_px last |r| (resolve_is_long posSide side)) := rfl

/-- C5: for a positive last price and any TP ratio, the TP trigger
price computed by `place_order` is strictly above `last` when the
resolved direction is long and strictly below when short; a zero ratio
is clamped to `last * 1.002` (long) resp. `last * 0.998` (short). -/
theorem place_order_tp_price_strict (cache : CapCache)
    (exchange : Nat → Except String OrderResp)
    (instId side posSide : String) (sz : Option ℤ) (tpR : ℚ)
    (slRa : Option ℚ) (lever : Option ℤ) (last px : ℚ)
    (hlast : 0 < last)
    (hpx : (place_order cache exchange instId side sz posSide (some tpR)
              slRa lever last).tpComputed = some px) :
    (resolve_is_long posSide side = true →
        last < px ∧ (tpR = 0 → px = last * (1002 / 1000))) ∧
    (resolve_is_long posSide side = false →
        px < last ∧ (tpR = 0 → px = last * (998 / 1000))) := by
  rw [place_order_tpComputed_eq] at hpx
  simp only [Option.map_some'] at hpx
  obtain rfl := Option.some.inj hpx
  constructor
  · intro hL
    rw [hL]
    simp only [tp_px, if_true]
    constructor
    · split_ifs with h
      · nlinarith
      · linarith [not_le.mp h]
    · intro h0
      subst h0
      norm_num
  · intro hL
    rw [hL]
    simp only [tp_px, Bool.false_eq_true, if_false]
    constructor
    · split_ifs with h
      · nlinarith
      · linarith [not_le.mp h]
    · intro h0
      subst h0
      norm_num

/-- C5 witness. -/
theorem place_order_tp_price_strict_witness :
    (resolve_is_long "net" "buy" = true →
        (100 : ℚ) < tp_px 100 |(0 : ℚ)| (resolve_is_long "net" "buy") ∧
          ((0 : ℚ) = 0 →
            tp_px 100 |(0 : ℚ)| (resolve_is_long "net" "buy") = 100 * (1002 / 1000))) ∧
    (resolve_is_long "net" "buy" = false →
        tp_px 100 |(0 : ℚ)| (resolve_is_long "net" "buy") < 100 ∧
          ((0 : ℚ) = 0 →
            tp_px 100 |(0 : ℚ)| (resolve_is_long "net" "buy") = 100 * (998 / 1000))) :=
  place_order_tp_price_strict emptyCache noopExchange "BTC-USDT-SWAP" "buy" "net"
    (some 1) 0 none (some 10) 100
    (tp_px 100 |(0 : ℚ)| (resolve_is_long "net" "buy")) (by norm_num) rfl

/-- C7: in any cycle whose position query returns an entry with
non-zero position magnitude, the loop body neither invokes
`open_position` nor advances past the guard: it returns the unchanged
cursor, no submission, and no selected instrument. -/
theorem trade_cycle_no_submit_when_open
    (n idx : Nat) (env : CycleEnv) (ps : List ℚ)
    (hq : env.getPositions = Except.ok ps)
    (hopen : ps.any (fun p => decide (0 < |p|)) = true) :
    trade_cycle n idx env = (idx, false, none) := by
  simp only [trade_cycle, hq, hopen]
  rfl

/-- C7 witness. -/
theorem trade_cycle_no_submit_when_open_witness :
    trade_cycle 3 7 openPosEnv = (7, false, none) :=
  trade_cycle_no_submit_when_open 3 7 openPosEnv [1] rfl (by decide)

/-- C8 counterexample: in a cycle skipped because a position is open,
the round-robin cursor does not advance (it stays at 0 instead of
moving to 1), refuting "advances by exactly one in every cycle". -/
theorem trade_cycle_cursor_stall_cex :
    (trade_cycle 2 0 openPosEnv).1 = 0 ∧ (trade_cycle 2 0 openPosEnv).1 ≠ 0 + 1 := by
  decide

/-- C8 (amended): the cursor advances by exactly one in every cycle
that passes the open-position guard — regardless of later candle,
balance or submission failures — and stays unchanged in cycles skipped
because a position is open or aborted by a network fault in the
position query itself. -/
theorem trade_cycle_cursor_advance (n idx : Nat) (env : CycleEnv) :
    (∀ ps, env.getPositions = Except.ok ps →
        ps.any (fun p => decide (0 < |p|)) = false →
        (trade_cycle n idx env).1 = idx + 1) ∧
    (∀ ps, env.getPositions = Except.ok ps →
        ps.any (fun p => decide (0 < |p|)) = true →
        (trade_cycle n idx env).1 = idx) ∧
    (∀ e, env.getPositions = Except.error e →
        (trade_cycle n idx env).1 = idx) := by
  refine ⟨?_, ?_, ?_⟩
  · intro ps hq hflat
    simp only [trade_cycle, hq, hflat, Bool.false_eq_true, if_false]
    rcases hc : env.getCandles with e | u <;>
      rcases hb : env.getBalance with e2 | b <;> simp only [hc, hb]
  · intro ps hq hopen
    simp only [trade_cycle, hq, hopen]
    rfl
  · intro e hq
    simp only [trade_cycle, hq]

/-- C8 witness for the amended statement. -/
theorem trade_cycle_cursor_advance_witness :
    (trade_cycle 3 5 flatEnv).1 = 5 + 1 ∧ (trade_cycle 3 5 openPosEnv).1 = 5 :=
  ⟨(trade_cycle_cursor_advance 3 5 flatEnv).1 [0] rfl (by decide),
   (trade_cycle_cursor_advance 3 5 openPosEnv).2.1 [1] rfl (by decide)⟩

/-- The sizes sent by `place_order` are those of the attempt ladder. -/
lemma place_order_szSent_eq (cache : CapCache)
    (exchange : Nat → Except String OrderResp) (instId side : String)
    (sz : Option ℤ) (posSide : String) (tpRa slRa : Option ℚ)
    (lever : Option ℤ) (last : ℚ) :
    (place_order cache exchange instId side sz posSide tpRa slRa lever last).szSent
      = (place_order_attempts cache exchange instId sz tpRa slRa lever last).2.1 := rfl

/-- The dict `place_order` returns is the one of the attempt ladder. -/
lemma place_order_result_eq (cache : CapCache)
    (exchange : Nat → Except String OrderResp) (instId side : String)
    (sz : Option ℤ) (posSide : String) (tpRa slRa : Option ℚ)
    (lever : Option ℤ) (last : ℚ) :
    (place_order cache exchange instId side sz posSide tpRa slRa lever last).result
      = (place_order_attempts cache exchange instId sz tpRa slRa lever last).1 := rfl

/-- The cache `place_order` leaves behind is the attempt ladder's. -/
lemma place_order_cache_eq (cache : CapCache)
    (exchange : Nat → Except String OrderResp) (instId side : String)
    (sz : Option ℤ) (posSide : String) (tpRa slRa : Option ℚ)
    (lever : Option ℤ) (last : ℚ) :
    (place_order cache exchange instId side sz posSide tpRa slRa lever last).cache
      = (place_order_attempts cache exchange instId sz tpRa slRa lever last).2.2 := rfl

/-- The ladder issues at most two exchange calls, whatever the inputs:
its branch structure has no loop and no nested retry. -/
lemma place_order_attempts_len (cache : CapCache)
    (exchange : Nat → Except String OrderResp) (instId : String)
    (sz : Option ℤ) (tpRa slRa : Option ℚ) (lever : Option ℤ) (last : ℚ) :
    (place_order_attempts cache exchange instId sz tpRa slRa lever last).2.1.length ≤ 2 := by
  unfold place_order_attempts
  repeat' split <;> try simp

/-- When the first response is a TP-direction rejection, a TP trigger
was attached and `last` is truthy, the ladder resubmits exactly once
with the same size and returns the second response unchanged. -/
lemma place_order_attempts_tp_retry (cache : CapCache)
    (exchange : Nat → Except String OrderResp) (instId : String)
    (sz : Option ℤ) (tpRa slRa : Option ℚ) (lever : Option ℤ) (last : ℚ)
    (r1 r2 : OrderResp)
    (hx : exchange 0 = Except.ok r1) (hrej : isTpReject r1 = true)
    (htp : tpRa.isSome = true) (hl : last ≠ 0)
    (hr2 : exchange 1 = Except.ok r2) :
    place_order_attempts cache exchange instId sz tpRa slRa lever last
      = (r2, [sz, sz], cache) := by
  have hbe : (last == 0) = false := by simp [hl]
  unfold place_order_attempts
  rw [hx]
  simp only [hrej, htp, hbe, Bool.true_and, Bool.true_or, Bool.not_false,
    Bool.and_true, if_true, hr2]

/-- C3: within one `place_order` submission at most two exchange calls
are ever issued, and when the exchange answers a TP-direction rejection
twice in a row (a TP trigger attached, truthy `last`), exactly two
attempts are made — original plus one retry — and the retry's response
is returned immediately without entering any further retry branch. -/
theorem place_order_retry_single_shot (cache : CapCache)
    (exchange : Nat → Except String OrderResp) (instId side : String)
    (sz : Option ℤ) (posSide : String) (tpRa slRa : Option ℚ)
    (lever : Option ℤ) (last : ℚ) :
    (place_order cache exchange instId side sz posSide tpRa slRa lever last).szSent.length ≤ 2 ∧
    (isTpRejectE (exchange 0) = true → isTpRejectE (exchange 1) = true →
      tpRa.isSome = true → last ≠ 0 →
      ∀ r2, exchange 1 = Except.ok r2 →
        (place_order cache exchange instId side sz posSide tpRa slRa lever last).szSent = [sz, sz] ∧
        (place_order cache exchange instId side sz posSide tpRa slRa lever last).result = r2) := by
  constructor
  · rw [place_order_szSent_eq]
    exact place_order_attempts_len cache exchange instId sz tpRa slRa lever last
  · intro h0 h1 htp hl r2 hr2
    cases hx : exchange 0 with
    | error e => rw [hx] at h0; exact absurd h0 (by simp [isTpRejectE])
    | ok r1 =>
      have hrej : isTpReject r1 = true := by rw [hx] at h0; exact h0
      have hkey := place_order_attempts_tp_retry cache exchange instId sz tpRa
        slRa lever last r1 r2 hx hrej htp hl hr2
      rw [place_order_szSent_eq, place_order_result_eq, hkey]
      exact ⟨rfl, rfl⟩

/-- C3 witness: the double TP-rejection scenario. -/
theorem place_order_retry_single_shot_witness :
    (place_order emptyCache doubleTpExchange "BTC-USDT-SWAP" "buy" (some 10) "net"
        (some (2 / 100)) (some (1 / 100)) (some 100) 30000).szSent.length ≤ 2 ∧
    ((place_order emptyCache doubleTpExchange "BTC-USDT-SWAP" "buy" (some 10) "net"
        (some (2 / 100)) (some (1 / 100)) (some 100) 30000).szSent = [some 10, some 10] ∧
      (place_order emptyCache doubleTpExchange "BTC-USDT-SWAP" "buy" (some 10) "net"
        (some (2 / 100)) (some (1 / 100)) (some 100) 30000).result = tpRejectResp) :=
  have h := place_order_retry_single_shot emptyCache doubleTpExchange "BTC-USDT-SWAP"
    "buy" (some 10) "net" (some (2 / 100)) (some (1 / 100)) (some 100) 30000
  ⟨h.1, h.2 (by decide) (by decide) rfl (by norm_num) tpRejectResp rfl⟩

/-- A left fold by `min` never exceeds its initial accumulator. -/
lemma foldl_min_le_init (x : ℤ) (xs : List ℤ) : xs.foldl min x ≤ x := by
  induction xs generalizing x with
  | nil => exact le_rfl
  | cons a as ih => exact le_trans (ih (min x a)) (min_le_left x a)

/-- A left fold by `min` never exceeds any list element. -/
lemma foldl_min_le_mem {y : ℤ} (xs : List ℤ) (x : ℤ) (hmem : y ∈ xs) :
    xs.foldl min x ≤ y := by
  induction xs generalizing x with
  | nil => cases hmem
  | cons a as ih =>
    rcases List.mem_cons.mp hmem with h1 | h2
    · subst h1
      exact le_trans (foldl_min_le_init (min x y) as) (min_le_right x y)
    · exact ih (min x a) h2

/-- With `fixed_contracts` unset and a nonzero cached cap present, the
resolved contract count never exceeds the cached cap: the cap joins the
candidate list and the result is bounded by the least candidate. -/
lemma resolve_contracts_le_cap (planned : ℤ) (iMax gMax : Option ℤ)
    (cp : ℤ) (hcp : cp ≠ 0) :
    resolve_contracts planned none iMax gMax (some cp) ≤ cp := by
  unfold resolve_contracts
  rw [if_neg (by simp [pyTruthyInt])]
  set cands := ([iMax, gMax, some cp].filterMap id).filter (fun v => decide (v ≠ 0))
    with hcands
  have hmem : cp ∈ cands := by
    rw [hcands]
    refine List.mem_filter.mpr ⟨?_, by simpa using hcp⟩
    simp [List.mem_filterMap]
  cases hc : cands with
  | nil => rw [hc] at hmem; cases hmem
  | cons x xs =>
    rw [hc] at hmem
    have hhard : xs.foldl min x ≤ cp := by
      rcases List.mem_cons.mp hmem with h1 | h2
      · subst h1; exact foldl_min_le_init cp xs
      · exact foldl_min_le_mem xs x h2
    dsimp only
    split_ifs with h
    · exact hhard
    · exact le_trans (not_lt.mp h) hhard

/-- The 51004 branch of the ladder when the message's first
`(contracts)` figure parses to 1500 and the size string parses to
`c ≥ 1`: the cache is updated to 1500 for `(instId, l)`, and a single
shrunken resubmission with size `min c 1500` is issued exactly when
that value differs from `c`. -/
lemma place_order_attempts_cap_case (cache : CapCache)
    (exchange : Nat → Except String OrderResp) (instId : String)
    (tpRa slRa : Option ℚ) (last : ℚ) (c l : ℤ)
    (r1 : OrderResp) (item : OrderItem) (rest : List OrderItem)
    (hx : exchange 0 = Except.ok r1)
    (hnotp : isTpReject r1 = false)
    (hdata : r1.data = item :: rest)
    (hcode : item.sCode = "51004")
    (hcap : capScan item.sMsg.data = some 1500)
    (hc : 1 ≤ c) (hl : l ≠ 0) (hinst : instId ≠ "") :
    place_order_attempts cache exchange instId (some c) tpRa slRa (some l) last
      = if 1500 < c then
          (match exchange 1 with
            | Except.error e =>
                (errResp e, [some c, some 1500],
                  update_position_cap cache instId (some l) (some 1500))
            | Except.ok r2 =>
                (r2, [some c, some 1500],
                  update_position_cap cache instId (some l) (some 1500)))
        else (r1, [some c], update_position_cap cache instId (some l) (some 1500)) := by
  have hcne : c ≠ 0 := by omega
  have hbc : ((c : ℤ) != 0) = true := by simpa using hcne
  have h15 : ((1500 : ℤ) != 0) = true := by decide
  unfold place_order_attempts
  simp only [hx]
  rw [if_neg (by simp [hnotp])]
  simp only [hdata, hcap]
  rw [if_pos (by simp [hcode])]
  simp only [pyTruthyInt, hbc, h15, Option.getD_some, Bool.and_self,
    Bool.true_and, eq_self_iff_true, if_true]
  by_cases hgt : 1500 < c
  · have hmax : max 1 (min c 1500) = 1500 := by omega
    rw [hmax, if_pos (by simp; omega), if_pos hgt]
  · have hmax : max 1 (min c 1500) = c := by omega
    rw [hmax, if_neg (by simp), if_neg hgt]

/-- C4 (amended): a 51004 rejection whose message's first parenthesized
contracts figure is 1,500, with a truthy leverage `l` and a requested
size parsing to `c ≥ 1` (and no simultaneous TP-direction match),
caches 1500 under `(instId, l)`; if `c > 1500` a single resubmission
with size `min c 1500 = 1500 ≥ 1` follows, otherwise the rejection is
returned with no resubmission; and every later cap resolution for the
same pair with `fixed_contracts` unset proposes at most 1500. -/
theorem place_order_cap_caches_1500 (cache : CapCache)
    (exchange : Nat → Except String OrderResp) (instId side posSide : String)
    (tpRa slRa : Option ℚ) (last : ℚ) (c l : ℤ)
    (r1 : OrderResp) (item : OrderItem) (rest : List OrderItem)
    (hx : exchange 0 = Except.ok r1)
    (hnotp : isTpReject r1 = false)
    (hdata : r1.data = item :: rest)
    (hcode : item.sCode = "51004")
    (hcap : capScan item.sMsg.data = some 1500)
    (hc : 1 ≤ c) (hl : l ≠ 0) (hinst : instId ≠ "") :
    (place_order cache exchange instId side (some c) posSide tpRa slRa (some l) last).cache
        (instId, l) = some 1500 ∧
    (1500 < c →
      (place_order cache exchange instId side (some c) posSide tpRa slRa (some l) last).szSent
        = [some c, some 1500]) ∧
    (c ≤ 1500 →
      (place_order cache exchange instId side (some c) posSide tpRa slRa (some l) last).szSent
          = [some c] ∧
      (place_order cache exchange instId side (some c) posSide tpRa slRa (some l) last).result
          = r1) ∧
    ∀ (planned : ℤ) (iMax gMax : Option ℤ),
      resolve_contracts planned none iMax gMax
        (get_cached_position_cap
          (place_order cache exchange instId side (some c) posSide tpRa slRa (some l) last).cache
          instId (some l)) ≤ 1500 := by
  have hkey := place_order_attempts_cap_case cache exchange instId tpRa slRa
    last c l r1 item rest hx hnotp hdata hcode hcap hc hl hinst
  have hupd : update_position_cap cache instId (some l) (some 1500) (instId, l)
      = some 1500 := by
    simp only [update_position_cap]
    rw [if_pos ⟨hinst, hl, by decide⟩]
    simp
  have hcache : (place_order cache exchange instId side (some c) posSide tpRa
      slRa (some l) last).cache (instId, l) = some 1500 := by
    rw [place_order_cache_eq, hkey]
    split_ifs with h
    · cases exchange 1 <;> simp [hupd]
    · exact hupd
  refine ⟨hcache, ?_, ?_, ?_⟩
  · intro hgt
    rw [place_order_szSent_eq, hkey, if_pos hgt]
    cases exchange 1 <;> rfl
  · intro hle
    rw [place_order_szSent_eq, place_order_result_eq, hkey, if_neg (not_lt.mpr hle)]
    exact ⟨rfl, rfl⟩
  · intro planned iMax gMax
    have hlook : get_cached_position_cap
        (place_order cache exchange instId side (some c) posSide tpRa slRa
          (some l) last).cache instId (some l) = some 1500 := by
      unfold get_cached_position_cap
      exact hcache
    rw [hlook]
    exact resolve_contracts_le_cap _ iMax gMax 1500 (by norm_num)

/-- C4 witness: requesting 2000 contracts against the 1,500 cap. -/
theorem place_order_cap_caches_1500_witness :
    (place_order emptyCache capExchange "BTC-USDT-SWAP" "buy" (some 2000) "net"
        none none (some 10) 0).cache ("BTC-USDT-SWAP", 10) = some 1500 ∧
    (place_order emptyCache capExchange "BTC-USDT-SWAP" "buy" (some 2000) "net"
        none none (some 10) 0).szSent = [some 2000, some 1500] ∧
    resolve_contracts 9999 none none none
      (get_cached_position_cap
        (place_order emptyCache capExchange "BTC-USDT-SWAP" "buy" (some 2000) "net"
          none none (some 10) 0).cache "BTC-USDT-SWAP" (some 10)) ≤ 1500 :=
  have h := place_order_cap_caches_1500 emptyCache capExchange "BTC-USDT-SWAP"
    "buy" "net" none none 0 2000 10 capRejectResp capRejectItem [] rfl (by decide)
    rfl rfl (by decide) (by decide) (by decide) (by decide)
  ⟨h.1, h.2.1 (by decide), h.2.2.2 9999 none none⟩

/-- C4 counterexample to the claim as stated: a 51004 rejection with the
`1,500(contracts)` message for a requested size of 1000 (≤ 1500) caches
the cap but issues NO resubmission — a single attempt, not the claimed
"single resubmission with size min(requested, 1500)". -/
theorem place_order_cap_no_resubmission_cex :
    (place_order emptyCache capExchange "BTC-USDT-SWAP" "buy" (some 1000) "net"
        none none (some 10) 0).szSent = [some 1000] ∧
    (place_order emptyCache capExchange "BTC-USDT-SWAP" "buy" (some 1000) "net"
        none none (some 10) 0).result = capRejectResp ∧
    (place_order emptyCache capExchange "BTC-USDT-SWAP" "buy" (some 1000) "net"
        none none (some 10) 0).szSent.length ≠ 2 := by
  refine ⟨?_, ?_, ?_⟩ <;> decide

end GamblingOnDogs
